import Mathlib

/-!
Verification of `python_examples/mc_npt_hs.py`.

Shallow embedding of the constant-NPT hard-sphere Monte Carlo program
`mc_npt_hs.py` and proofs about it.

Modelling conventions:
* Python floats are modelled by `ℚ` where the program only performs
  field/rounding operations on them (positions, the periodic wrap), and by
  `ℝ` where transcendental functions (`np.exp`, `np.log`) appear
  (box length, pressure, the Metropolis `delta`).
* `numpy` arrays of positions are `List Vec` with `Vec := ℚ × ℚ × ℚ`.
* The external collaborators (overlap oracle `overlap` / `overlap_1`, the
  Metropolis test from `maths_module`, the averaging and configuration-I/O
  modules) are not part of the repository source; they enter as abstract
  function parameters, so every theorem quantifies over them.
* The process state of the driver loop (lines 130-169) is `SimState`.
-/

namespace McNptHs

/-! ## Periodic wrap: `r - np.rint(r)`

`np.rint` rounds to the nearest integer with ties going to the nearest
even integer (IEEE 754 round-half-even), which is what numpy documents and
implements.  `rintQ` is that rounding on `ℚ`. -/

/-- Numpy's `np.rint` on rationals: nearest integer, ties to even. -/
def rintQ (x : ℚ) : ℤ :=
  let f := x - ⌊x⌋
  if f < 1/2 then ⌊x⌋
  else if 1/2 < f then ⌊x⌋ + 1
  else if Even ⌊x⌋ then ⌊x⌋ else ⌊x⌋ + 1

/-- The periodic-boundary correction `x - np.rint(x)` applied to one
position component (lines 121 and 140 of `mc_npt_hs.py`). -/
def wrapQ (x : ℚ) : ℚ := x - rintQ x

/-- A 3-vector of position components, in box units. -/
abbrev Vec : Type := ℚ × ℚ × ℚ

/-- Componentwise periodic wrap of a position vector. -/
def wrapVec (v : Vec) : Vec := (wrapQ v.1, wrapQ v.2.1, wrapQ v.2.2)

/-- All three components of a vector lie in the closed interval
`[-1/2, 1/2]`. -/
def inBox (v : Vec) : Prop :=
  (-(1/2) ≤ v.1 ∧ v.1 ≤ 1/2) ∧ (-(1/2) ≤ v.2.1 ∧ v.2.1 ≤ 1/2) ∧
    (-(1/2) ≤ v.2.2 ∧ v.2.2 ≤ 1/2)

instance (v : Vec) : Decidable (inBox v) := by unfold inBox; infer_instance

/-! ## Single-particle translation attempt (lines 139-145)

```
ri = random_translate_vector ( dr_max/box, r[i,:] )
ri = ri - np.rint ( ri )
rj = np.delete(r,i,0)
if not overlap_1 ( ri, box, rj ):
    r[i,:] = ri
    moves = moves + 1
```
`random_translate_vector` (external `maths_module`) returns `r[i,:]` plus a
random displacement; the displacement is the parameter `d` below.  The
overlap oracle `overlap_1` is an abstract parameter `ovl1`. -/

/-- One translation attempt for atom `i`: body of the atom loop,
lines 139-145.  Returns the updated position array and move counter. -/
def tryMove (ovl1 : Vec → ℝ → List Vec → Bool) (box : ℝ) (d : Vec)
    (i : ℕ) (r : List Vec) (moves : ℕ) : List Vec × ℕ :=
  let ri := wrapVec (r.getD i 0 + d)
  let rj := r.eraseIdx i
  if ovl1 ri box rj = false then (r.set i ri, moves + 1) else (r, moves)

/-- One full atom sweep (lines 136-145): atoms are processed in index
order, each seeing the in-place updates of earlier atoms; `ds` lists the
random displacement drawn for each atom. -/
def sweep (ovl1 : Vec → ℝ → List Vec → Bool) (box : ℝ) (ds : List Vec)
    (r : List Vec) : List Vec × ℕ :=
  (List.range r.length).foldl
    (fun acc i => tryMove ovl1 box (ds.getD i 0) i acc.1 acc.2) (r, 0)

/-! ## Observable calculator: `calculate` (lines 4-45)

`calculate` reads `n`, `box`, `m_ratio`, `v_ratio` from the enclosing
scope; here they are explicit arguments.  The optional `string` argument
selects the diagnostic mode.  Only the `.nam` and `.val` attributes of
`VariableType` matter to the claims; the `.method` attribute keeps its
default for all three variables in this program and is omitted. -/

/-- A named scalar variable, as produced by `calculate`. -/
structure VariableType where
  nam : String
  val : ℝ

/-- The observable calculator `calculate` (lines 4-45). -/
noncomputable def calculate (n : ℕ) (box m_ratio v_ratio : ℝ) (string : Option String) :
    List VariableType :=
  let vol := box ^ 3
  let rho := (n : ℝ) / vol
  let m_r := match string with
    | none => VariableType.mk "Move ratio" m_ratio
    | some _ => VariableType.mk "Move ratio" 0
  let v_r := match string with
    | none => VariableType.mk "Volume ratio" v_ratio
    | some _ => VariableType.mk "Volume ratio" 0
  let density := VariableType.mk "Density" rho
  [m_r, v_r, density]

/-! ## Volume-rescale move (lines 149-162)

```
v_ratio   = 0.0
zeta      = np.random.rand()
zeta      = 2.0*zeta-1.0
box_scale = np.exp(zeta*db_max)
box_new   = box*box_scale
den_scale = 1.0 / box_scale**3
if not overlap ( box_new, r ):
    delta = pressure * ( box_new**3 - box**3 )
    delta = delta + (n+1) * np.log(den_scale)
    if metropolis(delta):
        box     = box_new
        v_ratio = 1.0
```
The raw uniform draw `np.random.rand()` is the parameter `zeta0`; the
Metropolis test `metropolis` (external `maths_module`, one fresh uniform
draw folded inside) is the abstract parameter `metro`; the overlap oracle
`overlap` is the abstract parameter `ovl`. -/

/-- The mutable simulation state owned by the driver: particle count `n`,
box length `box`, and positions `r` in box units. -/
structure SimState where
  n : ℕ
  box : ℝ
  r : List Vec

/-- One volume-rescale attempt (lines 149-162).  Returns the updated state
and the volume-move counter `v_ratio`. -/
noncomputable def volumeMove (pressure db_max : ℝ)
    (ovl : ℝ → List Vec → Bool) (metro : ℝ → Bool) (zeta0 : ℝ)
    (s : SimState) : SimState × ℝ :=
  let zeta := 2 * zeta0 - 1
  let box_scale := Real.exp (zeta * db_max)
  let box_new := s.box * box_scale
  let den_scale := 1 / box_scale ^ 3
  if ovl box_new s.r = false then
    let delta := pressure * (box_new ^ 3 - s.box ^ 3)
    let delta := delta + ((s.n : ℝ) + 1) * Real.log den_scale
    if metro delta then ({ s with box := box_new }, 1) else (s, 0)
  else (s, 0)

/-- One step of the driver loop (lines 136-165): a full atom sweep
followed by exactly one volume-move attempt.  Returns the new state, the
move ratio and the volume ratio.  `ds` are the per-atom random
displacements drawn by `random_translate_vector`. -/
noncomputable def mcStep (pressure db_max : ℝ)
    (ovl : ℝ → List Vec → Bool) (ovl1 : Vec → ℝ → List Vec → Bool)
    (metro : ℝ → Bool) (ds : List Vec) (zeta0 : ℝ) (s : SimState) :
    SimState × ℝ × ℝ :=
  let swept := sweep ovl1 s.box ds s.r
  let m_ratio := (swept.2 : ℝ) / (s.n : ℝ)
  let moved := volumeMove pressure db_max ovl metro zeta0
    { n := s.n, box := s.box, r := swept.1 }
  (moved.1, m_ratio, moved.2)

/-! ## Per-block save tag (line 168)

`sav_tag = str(blk).zfill(3) if blk<1000 else 'sav'` — the block counter
`blk` runs over `1..nblock`, so `str(blk)` is a plain digit string and
Python's `str.zfill` just left-pads with `'0'`. -/

/-- Python `str.zfill` for a sign-less digit string: left-pad with zeros
up to `width`. -/
def zfill (width : ℕ) (s : String) : String :=
  if width ≤ s.length then s
  else String.mk (List.replicate (width - s.length) '0') ++ s

/-- The per-block configuration tag (line 168). -/
def sav_tag (blk : ℕ) : String :=
  if blk < 1000 then zfill 3 (Nat.repr blk) else "sav"

/-! ## Parameter input (lines 80-100)

The program reads a JSON object from stdin.  `JValue` models the Python
values `json.load` can produce; `typeName` models Python's `type()` tag,
under which `bool` is distinct from `int`. -/

/-- A decoded JSON value, as produced by Python's `json.load`. -/
inductive JValue where
  | jnull : JValue
  | jbool : Bool → JValue
  | jint : ℤ → JValue
  | jfloat : ℚ → JValue
  | jstr : String → JValue
  | jarr : List JValue → JValue
  | jobj : List (String × JValue) → JValue

/-- Python's `type()` tag of a decoded JSON value. -/
def JValue.typeName : JValue → String
  | jnull => "NoneType"
  | jbool _ => "bool"
  | jint _ => "int"
  | jfloat _ => "float"
  | jstr _ => "str"
  | jarr _ => "list"
  | jobj _ => "dict"

/-- A decoded JSON object: the namelist `nml`. -/
abbrev Nml : Type := List (String × JValue)

/-- The defaults dictionary (line 87). -/
def defaults : Nml :=
  [("nblock", .jint 10), ("nstep", .jint 1000), ("dr_max", .jfloat 0.15),
   ("db_max", .jfloat 0.005), ("pressure", .jfloat 4), ("fast", .jbool true)]

/-- Lookup of `defaults[key]`, guarded by `key in defaults`. -/
def lookupDefault (key : String) : Option JValue :=
  (defaults.find? (fun kv => kv.1 = key)).map Prod.snd

/-- The key-checking loop (lines 88-92): walk the supplied items in
order; a recognized key whose value's type differs from its default's
type raises `AssertionError` with message `key+" has the wrong type"`
(the `.error` case); an unrecognized key prints a warning and the loop
continues (warnings are returned in the `.ok` case). -/
def checkKeys : Nml → Except String (List String)
  | [] => .ok []
  | (key, val) :: rest =>
    match lookupDefault key with
    | some d =>
      if val.typeName = d.typeName then checkKeys rest
      else .error (key ++ " has the wrong type")
    | none =>
      match checkKeys rest with
      | .ok ws => .ok (("Warning " ++ key ++ " not in defaults") :: ws)
      | .error e => .error e

/-- How the process terminated: the printed message and the exit status. -/
structure ExitStatus where
  message : String
  code : ℕ

/-- The parameter read (lines 80-84).  `none` models stdin whose contents
are not valid JSON, in which case the program prints
`Exiting on Invalid JSON format` and calls `sys.exit()`; `sys.exit()`
with no argument terminates the process with exit status 0. -/
def readParams (stdinJson : Option Nml) : Except ExitStatus Nml :=
  match stdinJson with
  | none => .error { message := "Exiting on Invalid JSON format", code := 0 }
  | some nml => .ok nml

end McNptHs

namespace McNptHs

/-! ## Basic facts about the wrap -/

theorem wrapQ_mem (x : ℚ) : -(1/2) ≤ wrapQ x ∧ wrapQ x ≤ 1/2 := by
  unfold wrapQ rintQ
  have h0 : (0:ℚ) ≤ x - ⌊x⌋ := by
    have := Int.floor_le x
    linarith
  have h1 : x - ⌊x⌋ < 1 := by
    have := Int.lt_floor_add_one x
    linarith
  by_cases hlt : x - ⌊x⌋ < 1/2
  · simp only [hlt, if_true]
    constructor <;> linarith
  · by_cases hgt : 1/2 < x - ⌊x⌋
    · simp only [hlt, hgt, if_false, if_true]
      constructor <;> push_cast <;> linarith
    · have heq : x - ⌊x⌋ = 1/2 := le_antisymm (not_lt.mp hgt) (not_lt.mp hlt)
      by_cases he : Even ⌊x⌋
      · simp only [hlt, hgt, he, if_false, if_true]
        constructor <;> linarith
      · simp only [hlt, hgt, he, if_false, if_true]
        push_cast
        constructor <;> linarith

theorem inBox_wrapVec (v : Vec) : inBox (wrapVec v) :=
  ⟨wrapQ_mem v.1, wrapQ_mem v.2.1, wrapQ_mem v.2.2⟩

theorem rintQ_zero : rintQ 0 = 0 := by
  norm_num [rintQ]

theorem wrapQ_zero : wrapQ 0 = 0 := by
  norm_num [wrapQ, rintQ_zero]

theorem rintQ_quarter : rintQ (1/4) = 0 := by
  have hf : ⌊(1/4 : ℚ)⌋ = 0 := by
    rw [Int.floor_eq_zero_iff]
    constructor <;> norm_num
  norm_num [rintQ, hf]

theorem wrapQ_quarter : wrapQ (1/4) = 1/4 := by
  norm_num [wrapQ, rintQ_quarter]

theorem rintQ_half : rintQ (1/2) = 0 := by
  have hf : ⌊(1/2 : ℚ)⌋ = 0 := by
    rw [Int.floor_eq_zero_iff]
    constructor <;> norm_num
  norm_num [rintQ, hf]

theorem wrapQ_half : wrapQ (1/2) = 1/2 := by
  norm_num [wrapQ, rintQ_half]

/-! ## Claim theorems -/

/-- C3: a single-particle translation attempt tests the wrapped trial
position against exactly the other `n-1` current atom positions — the
array `np.delete(r,i,0)`, i.e. all entries except index `i` — and if the
oracle reports no overlap the move is unconditionally accepted (position
replaced, move counter incremented), otherwise the position array is left
unchanged. -/
theorem tryMove_overlap_test (ovl1 : Vec → ℝ → List Vec → Bool) (box : ℝ)
    (d : Vec) (i : ℕ) (r : List Vec) (m : ℕ) (h : i < r.length) :
    r.eraseIdx i = r.take i ++ r.drop (i + 1) ∧
    (r.eraseIdx i).length = r.length - 1 ∧
    (ovl1 (wrapVec (r.getD i 0 + d)) box (r.eraseIdx i) = false →
      tryMove ovl1 box d i r m = (r.set i (wrapVec (r.getD i 0 + d)), m + 1)) ∧
    (ovl1 (wrapVec (r.getD i 0 + d)) box (r.eraseIdx i) = true →
      tryMove ovl1 box d i r m = (r, m)) := by
  refine ⟨List.eraseIdx_eq_take_drop_succ r i, ?_, ?_, ?_⟩
  · have := List.length_eraseIdx_add_one h
    omega
  · intro hc
    simp only [tryMove, hc, if_true]
  · intro hc
    simp only [tryMove, hc]
    simp

/-- Witness for C3: with an oracle that reports no overlap, the move on a
concrete one-atom configuration is accepted and the counter incremented. -/
theorem tryMove_overlap_test_witness :
    tryMove (fun _ _ _ => false) 0 ((0:ℚ), (0:ℚ), (0:ℚ)) 0
      [((0:ℚ), (0:ℚ), (0:ℚ))] 0 = ([((0:ℚ), (0:ℚ), (0:ℚ))], 1) := by
  have h := (tryMove_overlap_test (fun _ _ _ => false) 0 ((0:ℚ), (0:ℚ), (0:ℚ))
    0 [((0:ℚ), (0:ℚ), (0:ℚ))] 0 (by decide)).2.2.1 rfl
  rw [h]
  simp [wrapVec, wrapQ_zero, Prod.ext_iff]

/-- C4 (amended): the periodic wrap `x - np.rint(x)` — applied to every
component at the initial read and to every translation trial position
before it is stored — lands in the CLOSED interval `[-1/2, 1/2]` (the
right endpoint `1/2` is attainable, so the half-open interval
`[-1/2, 1/2)` of the original claim is not an invariant); consequently a
position array whose components all lie in `[-1/2, 1/2]` keeps that
property across every translation attempt. -/
theorem positions_stay_wrapped :
    (∀ v : Vec, inBox (wrapVec v)) ∧
    (∀ (ovl1 : Vec → ℝ → List Vec → Bool) (box : ℝ) (d : Vec) (i : ℕ)
      (r : List Vec) (m : ℕ), (∀ p ∈ r, inBox p) →
      ∀ p ∈ (tryMove ovl1 box d i r m).1, inBox p) := by
  refine ⟨inBox_wrapVec, ?_⟩
  intro ovl1 box d i r m hr p hp
  simp only [tryMove] at hp
  split at hp
  · rcases List.mem_or_eq_of_mem_set hp with hmem | heq
    · exact hr p hmem
    · subst heq
      exact inBox_wrapVec _
  · exact hr p hp

/-- Witness for C4 (amended): a concrete updated position is in range. -/
theorem positions_stay_wrapped_witness :
    inBox ((1/4 : ℚ), (0:ℚ), (0:ℚ)) := by
  have hr : ∀ p ∈ [((0:ℚ), (0:ℚ), (0:ℚ))], inBox p := by
    intro p hp
    rw [List.mem_singleton] at hp
    subst hp
    refine ⟨⟨?_, ?_⟩, ⟨?_, ?_⟩, ?_, ?_⟩ <;> norm_num
  have hmem : ((1/4 : ℚ), (0:ℚ), (0:ℚ)) ∈
      (tryMove (fun _ _ _ => false) 0 ((1/4 : ℚ), 0, 0) 0
        [((0:ℚ), (0:ℚ), (0:ℚ))] 0).1 := by
    simp [tryMove, wrapVec, wrapQ_zero]
    rw [show (4⁻¹ : ℚ) = 1/4 by norm_num, wrapQ_quarter]
  exact positions_stay_wrapped.2 (fun _ _ _ => false) 0 ((1/4 : ℚ), 0, 0) 0
    [((0:ℚ), (0:ℚ), (0:ℚ))] 0 hr ((1/4 : ℚ), 0, 0) hmem

/-- Counterexample for C4 as stated: a translation whose wrapped trial
component is exactly `1/2` stores `1/2`, and `1/2` does not lie in the
half-open interval `[-1/2, 1/2)` claimed by the spec (`np.rint` rounds
ties to even, so `1/2 - rint(1/2) = 1/2`). -/
theorem position_component_hits_half :
    (tryMove (fun _ _ _ => false) 0 ((1/2 : ℚ), 0, 0) 0
      [((0:ℚ), (0:ℚ), (0:ℚ))] 0).1 = [((1/2 : ℚ), (0:ℚ), (0:ℚ))] ∧
    ¬ ((1/2 : ℚ) < 1/2) := by
  constructor
  · simp [tryMove, wrapVec, wrapQ_zero, Prod.ext_iff]
    rw [show (2⁻¹ : ℚ) = 1/2 by norm_num, wrapQ_half]
  · exact lt_irrefl _

/-- C8: a volume-rescale move — accepted or not — changes neither the
stored fractional position array nor the particle count `n`; only the box
length can change. -/
theorem volumeMove_positions_invariant (pressure db_max zeta0 : ℝ)
    (ovl : ℝ → List Vec → Bool) (metro : ℝ → Bool) (s : SimState) :
    ((volumeMove pressure db_max ovl metro zeta0 s).1).r = s.r ∧
    ((volumeMove pressure db_max ovl metro zeta0 s).1).n = s.n := by
  simp only [volumeMove]
  split
  · split <;> simp
  · simp

/-- C2: if the rescaled box overlaps, the volume move is rejected with the
state unchanged and the volume counter at `0.0`, and the result does not
depend on the Metropolis test `metro` at all — it is never evaluated. -/
theorem volumeMove_overlap_rejects (pressure db_max zeta0 : ℝ)
    (ovl : ℝ → List Vec → Bool) (metro : ℝ → Bool) (s : SimState)
    (h : ovl (s.box * Real.exp ((2 * zeta0 - 1) * db_max)) s.r = true) :
    volumeMove pressure db_max ovl metro zeta0 s = (s, 0) := by
  simp only [volumeMove, h]
  simp

/-- Witness for C2: with an always-overlapping oracle and an
always-accepting Metropolis test, the move is still rejected. -/
theorem volumeMove_overlap_rejects_witness :
    volumeMove 0 0 (fun _ _ => true) (fun _ => true) 0
      { n := 2, box := 1, r := [] } = ({ n := 2, box := 1, r := [] }, 0) :=
  volumeMove_overlap_rejects 0 0 0 (fun _ _ => true) (fun _ => true)
    { n := 2, box := 1, r := [] } rfl

/-- C1: when the volume-rescale proposal passes the overlap gate, the
argument handed to the Metropolis test is exactly
`delta = P * (V' - V) + (N + 1) * ln (V / V')` with `V = box^3`,
`V' = box_new^3`, and the density-scale factor
`s = V / V' = box_scale^(-3)`; the exponent on the density-scale term
is `N + 1`. -/
theorem volumeMove_delta_formula (pressure db_max zeta0 : ℝ)
    (ovl : ℝ → List Vec → Bool) (metro : ℝ → Bool) (s : SimState)
    (hbox : 0 < s.box)
    (hovl : ovl (s.box * Real.exp ((2 * zeta0 - 1) * db_max)) s.r = false) :
    volumeMove pressure db_max ovl metro zeta0 s =
      (if metro (pressure *
            ((s.box * Real.exp ((2 * zeta0 - 1) * db_max)) ^ 3 - s.box ^ 3) +
          ((s.n : ℝ) + 1) * Real.log (s.box ^ 3 /
            (s.box * Real.exp ((2 * zeta0 - 1) * db_max)) ^ 3))
        then ({ s with box := s.box * Real.exp ((2 * zeta0 - 1) * db_max) }, 1)
        else (s, 0)) ∧
    s.box ^ 3 / (s.box * Real.exp ((2 * zeta0 - 1) * db_max)) ^ 3 =
      Real.exp ((2 * zeta0 - 1) * db_max) ^ (-3 : ℤ) := by
  have hexp : (0:ℝ) < Real.exp ((2 * zeta0 - 1) * db_max) := Real.exp_pos _
  have hratio : s.box ^ 3 / (s.box * Real.exp ((2 * zeta0 - 1) * db_max)) ^ 3
      = 1 / Real.exp ((2 * zeta0 - 1) * db_max) ^ 3 := by
    rw [mul_pow]
    rw [div_mul_eq_div_div]
    rw [div_self (by positivity)]
  constructor
  · rw [hratio]
    simp only [volumeMove, hovl]
    simp
  · rw [hratio, zpow_neg]
    norm_num [zpow_ofNat]

/-- Witness for C1: a feasible proposal at concrete inputs takes the
Metropolis branch with the claimed argument. -/
theorem volumeMove_delta_formula_witness :
    volumeMove 4 0 (fun _ _ => false) (fun _ => true) 0
        { n := 2, box := 1, r := [] } =
      (if (fun _ => true) ((4:ℝ) *
            ((1 * Real.exp ((2 * 0 - 1) * 0)) ^ 3 - 1 ^ 3) +
          (((2:ℕ) : ℝ) + 1) * Real.log ((1:ℝ) ^ 3 /
            (1 * Real.exp ((2 * 0 - 1) * 0)) ^ 3))
        then ({ n := 2, box := 1 * Real.exp ((2 * 0 - 1) * 0), r := [] }, 1)
        else ({ n := 2, box := 1, r := [] }, 0)) :=
  (volumeMove_delta_formula 4 0 0 (fun _ _ => false) (fun _ => true)
    { n := 2, box := 1, r := [] } one_pos rfl).1

/-- C10: one full Monte Carlo step (atom sweep followed by the volume
move) preserves strict positivity of the box length: the sweep never
touches `box`, and an accepted volume move multiplies it by
`exp(zeta*db_max) > 0`. -/
theorem mcStep_box_pos (pressure db_max zeta0 : ℝ)
    (ovl : ℝ → List Vec → Bool) (ovl1 : Vec → ℝ → List Vec → Bool)
    (metro : ℝ → Bool) (ds : List Vec) (s : SimState) (h : 0 < s.box) :
    0 < (mcStep pressure db_max ovl ovl1 metro ds zeta0 s).1.box := by
  simp only [mcStep, volumeMove]
  split
  · split
    · exact mul_pos h (Real.exp_pos _)
    · exact h
  · exact h

/-- Witness for C10: the box length stays positive at concrete inputs. -/
theorem mcStep_box_pos_witness :
    0 < (mcStep 4 0 (fun _ _ => false) (fun _ _ _ => false) (fun _ => true)
      [] 0 { n := 2, box := 1, r := [] }).1.box :=
  mcStep_box_pos 4 0 0 (fun _ _ => false) (fun _ _ _ => false)
    (fun _ => true) [] { n := 2, box := 1, r := [] } one_pos

/-- C5: every invocation of `calculate` returns the ordered list
`[Move ratio, Volume ratio, Density]`, in which the density value is
`n / box^3` computed from the `n` and `box` passed at the time of the
call — in both the normal mode (`string = none`, ratios passed through)
and the diagnostic mode (`string` present, ratios forced to `0.0`). -/
theorem calculate_ordered_density (n : ℕ) (box m_ratio v_ratio : ℝ)
    (string : Option String) :
    calculate n box m_ratio v_ratio string =
      [⟨"Move ratio", if string = none then m_ratio else 0⟩,
       ⟨"Volume ratio", if string = none then v_ratio else 0⟩,
       ⟨"Density", (n : ℝ) / box ^ 3⟩] := by
  cases string <;> simp [calculate]

/-- C6 (amended): malformed JSON on stdin makes the program print
`Exiting on Invalid JSON format` and terminate immediately — before any
simulation state is built — but via `sys.exit()` with no argument, i.e.
with exit status 0, not a nonzero status; well-formed input proceeds. -/
theorem readParams_malformed_exits :
    readParams none =
      Except.error { message := "Exiting on Invalid JSON format", code := 0 } ∧
    ∀ nml : Nml, readParams (some nml) = Except.ok nml :=
  ⟨rfl, fun _ => rfl⟩

/-- Counterexample for C6 as stated: the fatal JSON-decode exit carries
exit status 0 (a normal status), refuting the claimed nonzero/abnormal
termination status. -/
theorem readParams_exit_status_zero :
    ¬ (∀ e : ExitStatus, readParams none = Except.error e → e.code ≠ 0) :=
  fun hAll => hAll { message := "Exiting on Invalid JSON format", code := 0 }
    rfl rfl

set_option maxRecDepth 4000 in
theorem repr_length_le_three : ∀ b, b < 1000 → (Nat.repr b).length ≤ 3 := by
  decide

theorem zfill_length (w : ℕ) (s : String) :
    (zfill w s).length = max w s.length := by
  unfold zfill
  split
  · omega
  · rw [String.length_append]
    have : (String.mk (List.replicate (w - s.length) '0')).length
        = w - s.length := by
      show (List.replicate (w - s.length) '0').length = w - s.length
      exact List.length_replicate _ _
    omega

/-- C9: the per-block snapshot tag is the zero-padded three-digit block
number for every block `b ≤ 999`, and every block `b ≥ 1000` reuses the
one fixed overflow tag `"sav"`. -/
theorem sav_tag_capped (blk : ℕ) :
    (blk ≤ 999 → sav_tag blk = zfill 3 (Nat.repr blk) ∧
      (sav_tag blk).length = 3) ∧
    (1000 ≤ blk → sav_tag blk = "sav") := by
  constructor
  · intro h
    have hlt : blk < 1000 := by omega
    have htag : sav_tag blk = zfill 3 (Nat.repr blk) := by
      unfold sav_tag
      rw [if_pos hlt]
    refine ⟨htag, ?_⟩
    rw [htag, zfill_length]
    have := repr_length_le_three blk hlt
    omega
  · intro h
    unfold sav_tag
    rw [if_neg (by omega)]

/-- Witness for C9: block 7 is tagged `007`-style (length three) and
block 1000 falls back to the overflow tag. -/
theorem sav_tag_capped_witness :
    sav_tag 7 = zfill 3 (Nat.repr 7) ∧ (sav_tag 7).length = 3 ∧
      sav_tag 1000 = "sav" :=
  ⟨((sav_tag_capped 7).1 (by decide)).1, ((sav_tag_capped 7).1 (by decide)).2,
    (sav_tag_capped 1000).2 (by decide)⟩

/-- C7: the key-checking loop aborts (raises `AssertionError`) exactly
when some supplied key is recognized but its value's Python type differs
from its default's type, and the abort message names such an offending
key; when no recognized key mismatches, the loop completes and merely
records one warning per unrecognized key, in order. -/
theorem checkKeys_fatal_iff (nml : Nml) :
    ((∃ ws, checkKeys nml = Except.ok ws) ↔
      ∀ key val, (key, val) ∈ nml → ∀ d, lookupDefault key = some d →
        JValue.typeName val = d.typeName) ∧
    (∀ e, checkKeys nml = Except.error e →
      ∃ key val, (key, val) ∈ nml ∧ ∃ d, lookupDefault key = some d ∧
        JValue.typeName val ≠ d.typeName ∧
        e = key ++ " has the wrong type") ∧
    (∀ ws, checkKeys nml = Except.ok ws →
      ws = (nml.filter (fun kv => (lookupDefault kv.1).isNone)).map
        (fun kv => "Warning " ++ kv.1 ++ " not in defaults")) := by
  induction nml with
  | nil =>
    refine ⟨?_, ?_, ?_⟩
    · simp [checkKeys]
    · intro e he
      simp [checkKeys] at he
    · intro ws hws
      simp only [checkKeys, Except.ok.injEq] at hws
      subst hws
      simp
  | cons kv rest ih =>
    obtain ⟨key, val⟩ := kv
    obtain ⟨ih1, ih2, ih3⟩ := ih
    cases hd : lookupDefault key with
    | some d =>
      by_cases ht : JValue.typeName val = d.typeName
      · have hck : checkKeys ((key, val) :: rest) = checkKeys rest := by
          simp [checkKeys, hd, ht]
        refine ⟨?_, ?_, ?_⟩
        · rw [hck, ih1]
          constructor
          · intro hall k v hkv d' hd'
            rcases List.mem_cons.mp hkv with h | h
            · injection h with h1 h2
              subst h1
              subst h2
              rw [hd] at hd'
              injection hd' with h3
              subst h3
              exact ht
            · exact hall k v h d' hd'
          · intro hall k v hkv d' hd'
            exact hall k v (List.mem_cons_of_mem _ hkv) d' hd'
        · intro e he
          rw [hck] at he
          obtain ⟨k, v, hkv, d', h1, h2, h3⟩ := ih2 e he
          exact ⟨k, v, List.mem_cons_of_mem _ hkv, d', h1, h2, h3⟩
        · intro ws hws
          rw [hck] at hws
          rw [ih3 ws hws]
          simp [List.filter_cons, hd]
      · have hck : checkKeys ((key, val) :: rest) =
            Except.error (key ++ " has the wrong type") := by
          simp [checkKeys, hd, ht]
        refine ⟨?_, ?_, ?_⟩
        · rw [hck]
          constructor
          · rintro ⟨ws, hws⟩
            exact absurd hws (by simp)
          · intro hall
            exact absurd (hall key val (List.mem_cons_self _ _) d hd) ht
        · intro e he
          rw [hck, Except.error.injEq] at he
          exact ⟨key, val, List.mem_cons_self _ _, d, hd, ht, he.symm⟩
        · intro ws hws
          rw [hck] at hws
          exact absurd hws (by simp)
    | none =>
      cases hrest : checkKeys rest with
      | ok ws0 =>
        have hck : checkKeys ((key, val) :: rest) =
            Except.ok (("Warning " ++ key ++ " not in defaults") :: ws0) := by
          simp [checkKeys, hd, hrest]
        refine ⟨?_, ?_, ?_⟩
        · constructor
          · intro _ k v hkv d' hd'
            rcases List.mem_cons.mp hkv with h | h
            · injection h with h1 h2
              subst h1
              subst h2
              rw [hd] at hd'
              exact absurd hd' (by simp)
            · exact (ih1.mp ⟨ws0, hrest⟩) k v h d' hd'
          · intro _
            exact ⟨_, hck⟩
        · intro e he
          rw [hck] at he
          exact absurd he (by simp)
        · intro ws hws
          rw [hck, Except.ok.injEq] at hws
          subst hws
          simp only [List.filter_cons, hd, Option.isNone_none, if_true,
            List.map_cons]
          rw [← ih3 ws0 hrest]
      | error e0 =>
        have hck : checkKeys ((key, val) :: rest) = Except.error e0 := by
          simp [checkKeys, hd, hrest]
        refine ⟨?_, ?_, ?_⟩
        · rw [hck]
          constructor
          · rintro ⟨ws, hws⟩
            exact absurd hws (by simp)
          · intro hall
            have hok : ∃ ws, checkKeys rest = Except.ok ws :=
              ih1.mpr (fun k v hkv d' hd' =>
                hall k v (List.mem_cons_of_mem _ hkv) d' hd')
            rw [hrest] at hok
            obtain ⟨ws, hws⟩ := hok
            exact absurd hws (by simp)
        · intro e he
          rw [hck, Except.error.injEq] at he
          subst he
          obtain ⟨k, v, hkv, d', h1, h2, h3⟩ := ih2 e0 hrest
          exact ⟨k, v, List.mem_cons_of_mem _ hkv, d', h1, h2, h3⟩
        · intro ws hws
          rw [hck] at hws
          exact absurd hws (by simp)

/-- Witness for C7: a single unrecognized key yields a non-fatal run with
exactly its warning recorded. -/
theorem checkKeys_fatal_iff_witness :
    ["Warning tau not in defaults"] =
      (([("tau", JValue.jint 5)] : Nml).filter
        (fun kv => (lookupDefault kv.1).isNone)).map
        (fun kv => "Warning " ++ kv.1 ++ " not in defaults") :=
  (checkKeys_fatal_iff [("tau", JValue.jint 5)]).2.2
    ["Warning tau not in defaults"] rfl

end McNptHs
